import Mathlib

/-!
Verification development for the Book-Price-Predictor repository.

The definitions below are a shallow embedding of the catalogue traversal and
detail-enrichment pipeline of `src/scraping/scrape_books_bs.py` and of the
concurrent variant in `src/scraping/scrape_local_async.py`.  Python strings
are modelled as Lean `String`/`List Char`; Python `dict`s built by insertion
are modelled as association lists with last-write-wins lookup; fallible
fetches are modelled as `Option`-valued site maps.
-/

namespace BookScrape

/-! ## Python string primitives -/

/-- Whitespace characters removed by Python's `str.strip()` (the ASCII ones,
which are the only ones arising in this pipeline). -/
def pySpace (c : Char) : Bool :=
  c == ' ' || c == '\t' || c == '\n' || c == '\r' || c == '\x0b' || c == '\x0c'

/-- Python `str.strip()`: drop leading and trailing whitespace. -/
def pyStrip (l : List Char) : List Char :=
  ((l.dropWhile pySpace).reverse.dropWhile pySpace).reverse

/-- `leadsWith pat s` is true when `pat` is a leading segment of `s`. -/
def leadsWith : List Char → List Char → Bool
  | [], _ => true
  | _ :: _, [] => false
  | a :: as, b :: bs => a == b && leadsWith as bs

/-- `hasOcc pat s` is true when `pat` occurs as a contiguous substring of `s`
(for nonempty `pat`). -/
def hasOcc (pat : List Char) : List Char → Bool
  | [] => false
  | c :: rest => leadsWith pat (c :: rest) || hasOcc pat rest

/-- Worker for `stripOcc`: when the skip counter is positive, the head
character belongs to an occurrence already matched and is discarded; at skip
counter zero the scanner looks for a fresh occurrence of `pat`. -/
def stripOccAux (pat : List Char) : Nat → List Char → List Char
  | _, [] => []
  | n + 1, _ :: rest => stripOccAux pat n rest
  | 0, c :: rest =>
    if leadsWith pat (c :: rest) && !pat.isEmpty then
      stripOccAux pat (pat.length - 1) rest
    else
      c :: stripOccAux pat 0 rest

/-- Python `s.replace(pat, "")` for a nonempty `pat`: delete the
non-overlapping occurrences of `pat`, scanning left to right.  (For an empty
`pat` this copies the string unchanged; the pipeline only uses nonempty
patterns.) -/
def stripOcc (pat : List Char) (s : List Char) : List Char := stripOccAux pat 0 s

/-- Python `pat in s` membership test on strings. -/
def pyContains (s pat : String) : Bool := hasOcc pat.data s.data

/-- Python `s.replace(pat, "")` lifted to `String`. -/
def pyReplaceDel (s pat : String) : String := String.mk (stripOcc pat.data s.data)

/-! ## Rating codec (`parse_rating`, scrape_books_bs.py lines 71-90) -/

/-- The `ratings_map` dictionary of `parse_rating`. -/
def ratings_map : List (String × Nat) :=
  [("Zero", 0), ("One", 1), ("Two", 2), ("Three", 3), ("Four", 4), ("Five", 5)]

/-- `parse_rating`: strip the input and look it up in `ratings_map`,
defaulting to `0` (Python `ratings_map.get(rating_str.strip(), 0)`). -/
def parse_rating (rating_str : String) : Nat :=
  (ratings_map.lookup (String.mk (pyStrip rating_str.data))).getD 0

/-! ## Locator resolution (scrape_books_bs.py lines 162-164) -/

def BASE_URL : String := "https://books.toscrape.com/"

/-- The line
`product_url = BASE_URL + "catalogue/" + relative_link.replace("../../../", "").replace("../", "")`. -/
def resolveLink (relative_link : String) : String :=
  BASE_URL ++ "catalogue/" ++ pyReplaceDel (pyReplaceDel relative_link "../../../") "../"

/-! ## Detail page parser (`parse_product_page`, scrape_books_bs.py lines 93-135) -/

/-- A fetched detail document as consumed by `parse_product_page`: the
breadcrumb link texts in order (`soup.select("ul.breadcrumb li a")`), the
optional product-information table rows (header text, value text) in order,
and the optional description text (the paragraph following the
`product_description` anchor; `none` when that anchor is absent). -/
structure DetailDoc where
  breadcrumb : List String
  table : Option (List (String × String))
  description : Option String
deriving DecidableEq, Repr

/-- Lookup in a Python dict built by inserting rows in order
(`product_info[header] = value`): the last row with the given key wins. -/
def pyDictGet (rows : List (String × String)) (key : String) : Option String :=
  (rows.reverse.find? (fun kv => kv.1 == key)).map (fun kv => kv.2)

/-- The dictionary returned by `parse_product_page`. -/
structure ItemDetail where
  upc : Option String
  product_type : Option String
  price_excl_tax : Option String
  price_incl_tax : Option String
  tax : Option String
  availability_detail : Option String
  num_reviews : Option String
  category : Option String
  description : Option String
deriving DecidableEq, Repr

/-- `parse_product_page` on an already-fetched detail document: category is
`breadcrumb[2] if len(breadcrumb) > 2 else None`; the remaining table fields
are independent `product_info.get(...)` lookups (empty dict when the table is
absent); description is carried over from the document. -/
def parse_product_page (doc : DetailDoc) : ItemDetail :=
  let category := if doc.breadcrumb.length > 2 then doc.breadcrumb.get? 2 else none
  let product_info := doc.table.getD []
  { upc := pyDictGet product_info "UPC"
    product_type := pyDictGet product_info "Product Type"
    price_excl_tax := pyDictGet product_info "Price (excl. tax)"
    price_incl_tax := pyDictGet product_info "Price (incl. tax)"
    tax := pyDictGet product_info "Tax"
    availability_detail := pyDictGet product_info "Availability"
    num_reviews := pyDictGet product_info "Number of reviews"
    category := category
    description := doc.description }

/-! ## Listing page model (`scrape_books`, scrape_books_bs.py lines 138-204) -/

/-- One `article.product_pod` container of a listing page, with the raw
pieces the loop body of `scrape_books` reads from it. -/
structure ProductPod where
  title_attr : Option String
  anchor_text : String
  href : String
  price_text : String
  availability_text : String
  star_classes : List String
deriving DecidableEq, Repr

/-- A fetched listing document: the product containers in document order and
the optional href of the `li.next` anchor. -/
structure ListingDoc where
  products : List ProductPod
  next_href : Option String
deriving DecidableEq, Repr

/-- The summary fields extracted for one book before the detail fetch
(`title`, `product_url`, `price`, `availability_text`, `rating`).  The price
is kept as the cleaned numeric token produced by
`re.sub(r"[^0-9.]+", "", price_text)`. -/
structure ItemSummary where
  title : String
  product_url : String
  price : String
  availability : String
  rating : Nat
deriving DecidableEq, Repr

/-- The per-container summary extraction of the `scrape_books` loop body
(lines 158-172): title attribute if present else anchor text, resolved
product URL, cleaned price token, verbatim availability text, and the rating
decoded from the second `star-rating` class token (`"Zero"` when there are
fewer than two tokens). -/
def parse_pod (p : ProductPod) : ItemSummary :=
  { title := p.title_attr.getD p.anchor_text
    product_url := resolveLink p.href
    price := String.mk (p.price_text.data.filter (fun c => c.isDigit || c == '.'))
    availability := p.availability_text
    rating := parse_rating ((p.star_classes.get? 1).getD "Zero") }

/-- The listing-parse step of one iteration of `scrape_books`: the summaries
of all product containers in document order, plus the optional next-page
href whose absence terminates the traversal. -/
def parse_listing (doc : ListingDoc) : List ItemSummary × Option String :=
  (doc.products.map parse_pod, doc.next_href)

/-! ## Traversal controller -/

/-- One output row of `scrape_books` (`book_info` merged with the detail
dictionary), in column order. -/
structure EnrichedRecord where
  title : String
  price : String
  availability : String
  rating : Nat
  upc : Option String
  product_type : Option String
  price_excl_tax : Option String
  price_incl_tax : Option String
  tax : Option String
  availability_detail : Option String
  num_reviews : Option String
  category : Option String
  description : Option String
deriving DecidableEq, Repr

/-- `book_info.update(details)`: merge a summary with its parsed detail. -/
def mkRecord (s : ItemSummary) (d : ItemDetail) : EnrichedRecord :=
  { title := s.title
    price := s.price
    availability := s.availability
    rating := s.rating
    upc := d.upc
    product_type := d.product_type
    price_excl_tax := d.price_excl_tax
    price_incl_tax := d.price_incl_tax
    tax := d.tax
    availability_detail := d.availability_detail
    num_reviews := d.num_reviews
    category := d.category
    description := d.description }

/-- The document source: `listing url` / `detail url` return the parsed
document at `url`, or `none` when `requests.get(url)` fails or returns a
non-success status (in which case `get_soup` raises immediately, with no
retry). -/
structure Site where
  listing : String → Option ListingDoc
  detail : String → Option DetailDoc

/-- The inner per-summary loop of `scrape_books`: for each product container
in order, resolve its detail locator, fetch and parse the detail page, and
append the merged record.  A failed detail fetch raises at once: the pair's
second component carries the failing locator and no record at or after the
failing container is produced. -/
def processPods (site : Site) : List ProductPod → List EnrichedRecord × Option String
  | [] => ([], none)
  | p :: rest =>
    let s := parse_pod p
    match site.detail s.product_url with
    | none => ([], some s.product_url)
    | some ddoc =>
      let r := mkRecord s (parse_product_page ddoc)
      let res := processPods site rest
      (r :: res.1, res.2)

/-- Next-page URL construction (lines 188-198): prefix `catalogue/` unless
the href already contains it. -/
def nextURL (next_href : String) : String :=
  if pyContains next_href "catalogue/" then BASE_URL ++ next_href
  else BASE_URL ++ "catalogue/" ++ next_href

/-- The page loop of `scrape_books`, with explicit fuel bounding the number
of listing pages followed (the Python loop has no such bound and would run
forever on a cyclic next chain; every claim below is instantiated with
enough fuel).  The second component is the locator of the first failed
fetch, `none` when the whole crawl succeeded. -/
def scrape_books (site : Site) : Nat → String → List EnrichedRecord × Option String
  | 0, _ => ([], none)
  | fuel + 1, url =>
    match site.listing url with
    | none => ([], some url)
    | some doc =>
      let res := processPods site doc.products
      match res.2 with
      | some e => (res.1, some e)
      | none =>
        match doc.next_href with
        | none => (res.1, none)
        | some nh =>
          let rest := scrape_books site fuel (nextURL nh)
          (res.1 ++ rest.1, rest.2)

/-! ## Record sink (`main`, scrape_books_bs.py lines 207-214)

The sink is `df.to_csv(CSV_FILE, index=False, quoting=csv.QUOTE_NONNUMERIC)`.
Its serialization discipline — modelled from the spec, since the writer body
is pandas library code and no reader of this file exists in the repository —
is: numeric fields are written unquoted; every text field is quoted, with
interior quote characters doubled; a missing value is written as the empty
token; fields are comma-separated and rows newline-terminated.  The matching
reader below undoes this discipline. -/

/-- One cell handed to the tabular sink: a missing value, a numeric token
(written unquoted), or a text value (written quoted). -/
inductive CVal where
  | null : CVal
  | num : String → CVal
  | str : String → CVal
deriving DecidableEq, Repr

/-- Double every quote character, as the CSV quoting discipline requires
inside a quoted field. -/
def escQ : List Char → List Char
  | [] => []
  | c :: t => if c = '"' then '"' :: '"' :: escQ t else c :: escQ t

/-- Serialize one cell: missing is the empty token, numeric tokens go out
verbatim and unquoted, text is wrapped in quotes with interior quotes
doubled. -/
def writeField : CVal → List Char
  | .null => []
  | .num s => s.data
  | .str s => '"' :: (escQ s.data ++ ['"'])

/-- Serialize one row: comma-separated cells, newline-terminated. -/
def writeRow : List CVal → List Char
  | [] => ['\n']
  | [v] => writeField v ++ ['\n']
  | v :: v2 :: vs => writeField v ++ ',' :: writeRow (v2 :: vs)

/-- Serialize a sequence of rows. -/
def writeCSV (rows : List (List CVal)) : List Char :=
  rows.foldr (fun r acc => writeRow r ++ acc) []

/-- Parser state: outside quotes, inside a quoted field, or just after a
closing quote (where a second quote means an escaped literal quote). -/
inductive PState where
  | normal : PState
  | inQ : PState
  | afterQ : PState
deriving DecidableEq, Repr

/-- Close the current field: a quoted field is text (even when empty), an
empty unquoted field is a missing value, a nonempty unquoted field is a
numeric token.  `cur` holds the field's characters in reverse. -/
def closeField (cur : List Char) (quoted : Bool) : CVal :=
  if quoted then .str (String.mk cur.reverse)
  else if cur.isEmpty then .null
  else .num (String.mk cur.reverse)

/-- CSV reader state machine.  `cur` is the current field (reversed), `row`
the current row's closed fields (reversed), `rows` the closed rows
(reversed). -/
def parseGo : List Char → PState → List Char → List CVal → List (List CVal) →
    List (List CVal)
  | [], st, cur, row, rows =>
    match st with
    | .normal =>
      if cur.isEmpty && row.isEmpty then rows.reverse
      else (((closeField cur false :: row).reverse) :: rows).reverse
    | _ => (((closeField cur true :: row).reverse) :: rows).reverse
  | c :: rest, .normal, cur, row, rows =>
    if c = '"' && cur.isEmpty then parseGo rest .inQ cur row rows
    else if c = ',' then parseGo rest .normal [] (closeField cur false :: row) rows
    else if c = '\n' then
      parseGo rest .normal [] [] (((closeField cur false :: row).reverse) :: rows)
    else parseGo rest .normal (c :: cur) row rows
  | c :: rest, .inQ, cur, row, rows =>
    if c = '"' then parseGo rest .afterQ cur row rows
    else parseGo rest .inQ (c :: cur) row rows
  | c :: rest, .afterQ, cur, row, rows =>
    if c = '"' then parseGo rest .inQ ('"' :: cur) row rows
    else if c = ',' then parseGo rest .normal [] (closeField cur true :: row) rows
    else if c = '\n' then
      parseGo rest .normal [] [] (((closeField cur true :: row).reverse) :: rows)
    else parseGo rest .normal (c :: cur) row rows

/-- Parse a CSV character stream back into rows of cells. -/
def parseCSV (s : List Char) : List (List CVal) := parseGo s .normal [] [] []

/-- Map an optional text column value to a sink cell: present text is
quoted text, an absent value is the explicit missing token. -/
def optStr : Option String → CVal
  | none => .null
  | some s => .str s

/-- The 13-column row the DataFrame writes for one record, in the fixed
column order `title, price, availability, rating, upc, product_type,
price_excl_tax, price_incl_tax, tax, availability_detail, num_reviews,
category, description`.  `price` and `rating` are the numeric columns. -/
def toRow (r : EnrichedRecord) : List CVal :=
  [.str r.title, .num r.price, .str r.availability, .num (toString r.rating),
   optStr r.upc, optStr r.product_type, optStr r.price_excl_tax,
   optStr r.price_incl_tax, optStr r.tax, optStr r.availability_detail,
   optStr r.num_reviews, optStr r.category, optStr r.description]

/-- `main`: run the crawl; on success write the records through the sink and
return the file contents, on any fetch failure the exception propagates and
nothing is written (`to_csv` runs only after `scrape_books` returns). -/
def main (site : Site) (fuel : Nat) (start : String) : Option (List Char) :=
  match scrape_books site fuel start with
  | (_, some _) => none
  | (rs, none) => some (writeCSV (rs.map toRow))

/-! ## Concurrent variant (`scrape_all_pages_async`, scrape_local_async.py)

The async script reuses `parse_html_file` from `scrape_local_html.py`, a
module the variant imports but which is not among the available sources; the
parse function is therefore an abstract parameter here, and the sequential
driver it replaces is modelled from the spec. -/

/-- Modelled from the spec: one record dictionary produced by
`parse_html_file` of the missing `scrape_local_html.py`.  Its columns are
those of the synthetic dataset written by `generate_synthetic_books.py`:
`id, title, category, rating, price, availability, description`, all held as
strings by the parser. -/
structure LocalRec where
  id : String
  title : String
  category : String
  rating : String
  price : String
  availability : String
  description : String
deriving DecidableEq, Repr

/-- A record after the numeric-column conversion: the `id`, `rating`,
`price`, `availability` columns hold a number or the missing value. -/
structure LocalRecNum where
  id : Option ℚ
  title : String
  category : String
  rating : Option ℚ
  price : Option ℚ
  availability : Option ℚ
  description : String
deriving DecidableEq, Repr

/-- Body of a decimal literal: digits, optionally with one decimal point,
with at least one digit overall (`12`, `12.`, `12.5`, `.5`). -/
def numBody (l : List Char) : Bool :=
  let intPart := l.takeWhile (fun c => c.isDigit)
  let rest := l.dropWhile (fun c => c.isDigit)
  match rest with
  | [] => !intPart.isEmpty
  | '.' :: frac => (!intPart.isEmpty || !frac.isEmpty) && frac.all (fun c => c.isDigit)
  | _ => false

/-- Numeric value of a digit run, most significant first. -/
def digitsVal (l : List Char) : Nat :=
  l.foldl (fun acc c => acc * 10 + (c.toNat - '0'.toNat)) 0

/-- Value of a decimal-literal body. -/
def numBodyVal (l : List Char) : ℚ :=
  let intPart := l.takeWhile (fun c => c.isDigit)
  let frac := (l.dropWhile (fun c => c.isDigit)).drop 1
  (digitsVal intPart : ℚ) + (digitsVal frac : ℚ) / (10 : ℚ) ^ frac.length

/-- Sign of an optionally signed literal. -/
def signOf (t : List Char) : ℚ := if t.head? = some '-' then -1 else 1

/-- The literal with its sign character removed. -/
def bodyOf (t : List Char) : List Char :=
  if t.head? = some '-' || t.head? = some '+' then t.drop 1 else t

/-- Whether a cell value is convertible to a number: after stripping, an
optionally signed decimal literal. -/
def isNumLit (s : String) : Bool := numBody (bodyOf (pyStrip s.data))

/-- `pd.to_numeric(value, errors='coerce')` on one cell: strip the string,
accept an optionally signed decimal literal, and coerce anything else to the
missing value instead of raising. -/
def pyToNumeric (s : String) : Option ℚ :=
  let t := pyStrip s.data
  if numBody (bodyOf t) then some (signOf t * numBodyVal (bodyOf t)) else none

/-- The per-column `df[col] = pd.to_numeric(df[col], errors='coerce')` loop
(scrape_local_async.py lines 58-61) applied to one record. -/
def coerceRec (r : LocalRec) : LocalRecNum :=
  { id := pyToNumeric r.id
    title := r.title
    category := r.category
    rating := pyToNumeric r.rating
    price := pyToNumeric r.price
    availability := pyToNumeric r.availability
    description := r.description }

/-- Modelled from the spec: the sequential Traversal Controller loop over
the same input documents (spec section 4.5, instantiated for the local
pipeline whose sequential driver `scrape_local_html.py` is not among the
available sources) — parse each file in listing order, appending each file's
records to the accumulator. -/
def seqScrape (parse : String → List LocalRec) (files : List String) :
    List LocalRec :=
  (files.map parse).flatten

/-- A completed unit writes its result into the slot keyed by its task
index. -/
def putSlot (slots : Nat → Option (List LocalRec)) (i : Nat)
    (v : List LocalRec) : Nat → Option (List LocalRec) :=
  fun j => if j = i then some v else slots j

/-- Run all units: unit `i` parses file `i`; units complete in the order
given by `order`, each filling its own slot. -/
def runUnits (parse : String → List LocalRec) (files : List String)
    (order : List Nat) : Nat → Option (List LocalRec) :=
  order.foldl (fun slots i => putSlot slots i (((files.get? i).map parse).getD []))
    (fun _ => none)

/-- `scrape_all_pages_async` (lines 46-62) on an already-listed file
sequence: create one task per file in listing order, let the tasks complete
in the order `order`, gather results in task order (`asyncio.gather`
preserves task order, not completion order), and flatten.  The numeric
conversion is `coerceRec` applied afterwards, see `async_df`. -/
def scrape_all_pages_async (parse : String → List LocalRec)
    (files : List String) (order : List Nat) : List LocalRec :=
  let slots := runUnits parse files order
  ((List.range files.length).map (fun i => (slots i).getD [])).flatten

/-- The DataFrame produced by the async variant after the numeric-column
conversion loop. -/
def async_df (parse : String → List LocalRec) (files : List String)
    (order : List Nat) : List LocalRecNum :=
  (scrape_all_pages_async parse files order).map coerceRec

/-! ## Auxiliary definitions used by the statements below -/

/-- The pattern `"../"` as a character list. -/
def dots : List Char := "../".data

/-- The pattern `"../../../"` as a character list. -/
def dots3 : List Char := "../../../".data

/-- A relative locator prefix of `k` parent-directory segments. -/
def repParent : Nat → String
  | 0 => ""
  | k + 1 => "../" ++ repParent k

/-- Modelled from the words of claim C9: delete every occurrence of `"../"`
anywhere in the href (one left-to-right pass), then unconditionally prepend
the fixed catalogue-root prefix.  Compared against `resolveLink` below. -/
def resolveLinkClaimC9 (href : String) : String :=
  BASE_URL ++ "catalogue/" ++ String.mk (stripOcc dots href.data)

/-- Remove every table row with the given header from a detail document,
leaving everything else unchanged (used to state lookup independence). -/
def eraseTableKey (doc : DetailDoc) (k : String) : DetailDoc :=
  { doc with table := doc.table.map (fun rows => rows.filter (fun kv => kv.1 != k)) }

/-- Whether a detail document's table has a row with the given header. -/
def hasTableRow (doc : DetailDoc) (k : String) : Prop :=
  ∃ rows, doc.table = some rows ∧ ∃ kv ∈ rows, kv.1 = k

/-- Well-formedness of one sink cell: a numeric token is nonempty and free
of the delimiter, the quote character and the newline (true of every numeric
token the pipeline produces); missing and text cells are unrestricted. -/
def wfVal : CVal → Prop
  | .null => True
  | .num s => s ≠ "" ∧ ∀ c ∈ s.data, c ≠ '"' ∧ c ≠ ',' ∧ c ≠ '\n'
  | .str _ => True

/-! Concrete fixtures used by witness statements. -/

/-- A concrete detail document with a two-row table and a short trail. -/
def docDetailEx : DetailDoc :=
  { breadcrumb := ["Home", "Books"],
    table := some [("UPC", "u1"), ("Tax", "£1")],
    description := none }

/-- A concrete product container whose detail fetch succeeds. -/
def podA : ProductPod :=
  { title_attr := some "Alpha", anchor_text := "Alpha...", href := "a.html",
    price_text := "£12.50", availability_text := "In stock",
    star_classes := ["star-rating", "Three"] }

/-- A concrete product container whose detail fetch fails. -/
def podB : ProductPod :=
  { title_attr := none, anchor_text := "Beta", href := "b.html",
    price_text := "£7.00", availability_text := "In stock",
    star_classes := ["star-rating", "Zero-typo"] }

/-- A single listing page holding `podA` then `podB`, with no next control. -/
def docListEx : ListingDoc := { products := [podA, podB], next_href := none }

/-- A first listing page holding only `podA`, linking on to a second page. -/
def docPage1 : ListingDoc := { products := [podA], next_href := some "page-2.html" }

/-- A two-page site: the listing at `"START2"` is `docPage1`, whose next
link leads to `docListEx`; the detail behind `podA` resolves and every
other fetch (in particular `podB`'s detail) fails. -/
def siteEx2 : Site :=
  { listing := fun u =>
      if u = "START2" then some docPage1
      else if u = BASE_URL ++ "catalogue/" ++ "page-2.html" then some docListEx
      else none,
    detail := fun u =>
      if u = resolveLink "a.html" then
        some { breadcrumb := ["Home", "Books", "Poetry", "Alpha"],
               table := some [("UPC", "u1")], description := some "d" }
      else none }

/-- The crawl started at the first argument reaches the page at the last
argument after fully traversing the pages of the chain in order: each chain
entry pairs a locator with the listing document fetched there, all of whose
items enrich successfully, and whose next link resolves to the following
entry's locator (to the target for the last entry). -/
def reachesPage (site : Site) : String → List (String × ListingDoc) → String → Prop
  | url, [], target => url = target
  | url, cd :: rest, target =>
    url = cd.1 ∧ site.listing cd.1 = some cd.2 ∧
    (processPods site cd.2.products).2 = none ∧
    ∃ nh, cd.2.next_href = some nh ∧ reachesPage site (nextURL nh) rest target

/-- A concrete one-record-per-file parse function, standing in for the
missing `parse_html_file` when instantiating the concurrency theorem. -/
def parseEx : String → List LocalRec := fun f =>
  [{ id := "1", title := f, category := "C", rating := "3", price := "9.5",
     availability := "4", description := "d" }]

/-- A concrete record whose text fields contain the delimiter, the quote
character and a newline, with several absent optional fields. -/
def recSinkEx : EnrichedRecord :=
  { title := "A, \"B\"\nC", price := "12.50", availability := "In stock", rating := 3,
    upc := some "u", product_type := none, price_excl_tax := some "£10.00",
    price_incl_tax := none, tax := some "", availability_detail := none,
    num_reviews := some "0", category := some "Poetry", description := none }

/-! ## Theorems for the claims -/

/-- Claim C3, counterexample: the string `" Three"` lies outside the closed
rating vocabulary, yet the decoder returns `3` for it rather than the `0`
the claim demands for every string outside the vocabulary (the code strips
whitespace before the lookup); the vocabulary moreover has six words, not
seven. -/
theorem C3_counterexample :
    " Three" ∉ ratings_map.map Prod.fst ∧ parse_rating " Three" = 3 ∧
    ratings_map.length = 6 := by
  refine ⟨by decide, by decide, by decide⟩

/-- Claim C3 (amended): the rating decoder is total: each entry of the
closed six-word vocabulary (which includes an explicit `"Zero"`) decodes to
its matching integer in `{0,1,2,3,4,5}`, and every string whose
whitespace-stripped form is outside the vocabulary (including the empty
string) decodes to `0` rather than failing. -/
theorem C3_amended_decoder_total (s : String)
    (h : String.mk (pyStrip s.data) ∉ ratings_map.map Prod.fst) :
    parse_rating s = 0 ∧
    (∀ kv ∈ ratings_map, parse_rating kv.1 = kv.2 ∧ kv.2 ≤ 5) ∧
    ratings_map.length = 6 ∧ parse_rating "" = 0 := by
  refine ⟨?_, by decide, by decide, by decide⟩
  simp only [ratings_map, List.map, List.mem_cons, List.not_mem_nil, or_false,
    not_or] at h
  obtain ⟨h1, h2, h3, h4, h5, h6⟩ := h
  simp [parse_rating, ratings_map, List.lookup,
    beq_eq_false_iff_ne.mpr h1, beq_eq_false_iff_ne.mpr h2,
    beq_eq_false_iff_ne.mpr h3, beq_eq_false_iff_ne.mpr h4,
    beq_eq_false_iff_ne.mpr h5, beq_eq_false_iff_ne.mpr h6]

/-- Witness for `C3_amended_decoder_total` at the concrete out-of-vocabulary
input `"Zero-typo"`. -/
theorem C3_amended_decoder_total_witness :
    parse_rating "Zero-typo" = 0 :=
  (C3_amended_decoder_total "Zero-typo" (by decide)).1

/-- Claim C8: for every detail document, the extracted category is the
breadcrumb element at position 3 (1-indexed) when the trail has at least
three link elements, and the explicit missing value when the trail is
shorter. -/
theorem C8_category_third_breadcrumb (doc : DetailDoc) :
    (3 ≤ doc.breadcrumb.length →
      (parse_product_page doc).category = doc.breadcrumb.get? 2) ∧
    (doc.breadcrumb.length < 3 → (parse_product_page doc).category = none) := by
  constructor
  · intro h
    simp only [parse_product_page]
    rw [if_pos (by omega)]
  · intro h
    simp only [parse_product_page]
    rw [if_neg (by omega)]

/-- Witness for `C8_category_third_breadcrumb` on a four-element trail and a
two-element trail. -/
theorem C8_category_third_breadcrumb_witness :
    (parse_product_page
      { breadcrumb := ["Home", "Books", "Poetry", "Tales"], table := none,
        description := none }).category = some "Poetry" ∧
    (parse_product_page
      { breadcrumb := ["Home", "Books"], table := none,
        description := none }).category = none := by
  constructor
  · have h := (C8_category_third_breadcrumb
      { breadcrumb := ["Home", "Books", "Poetry", "Tales"], table := none,
        description := none }).1 (by decide)
    rw [h]
    rfl
  · exact (C8_category_third_breadcrumb
      { breadcrumb := ["Home", "Books"], table := none,
        description := none }).2 (by decide)

/-- Claim C4: for every listing document with `N` item containers and no
next control, the listing parse step yields exactly `N` summaries, the
`i`-th summary coming from the `i`-th container, and signals traversal
termination by returning no next-locator. -/
theorem C4_listing_parse_complete (doc : ListingDoc)
    (h : doc.next_href = none) :
    (parse_listing doc).1.length = doc.products.length ∧
    (∀ i : Nat, (parse_listing doc).1.get? i = (doc.products.get? i).map parse_pod) ∧
    (parse_listing doc).2 = none := by
  refine ⟨?_, ?_, ?_⟩
  · simp [parse_listing]
  · intro i
    simp [parse_listing, List.get?_map]
  · simp [parse_listing, h]

/-- Witness for `C4_listing_parse_complete` on a concrete two-container
listing page without a next control. -/
theorem C4_listing_parse_complete_witness :
    (parse_listing
      { products := [
          { title_attr := some "Alpha", anchor_text := "Alpha...",
            href := "alpha.html", price_text := "£12.50",
            availability_text := "In stock",
            star_classes := ["star-rating", "Three"] },
          { title_attr := none, anchor_text := "Beta",
            href := "beta.html", price_text := "£7.00",
            availability_text := "In stock",
            star_classes := ["star-rating", "Zero-typo"] }],
        next_href := none }).1.length = 2 := by
  have h := C4_listing_parse_complete
    { products := [
        { title_attr := some "Alpha", anchor_text := "Alpha...",
          href := "alpha.html", price_text := "£12.50",
          availability_text := "In stock",
          star_classes := ["star-rating", "Three"] },
        { title_attr := none, anchor_text := "Beta",
          href := "beta.html", price_text := "£7.00",
          availability_text := "In stock",
          star_classes := ["star-rating", "Zero-typo"] }],
      next_href := none } rfl
  rw [h.1]
  rfl

/-- The coercion yields the missing value exactly on non-numeric-literal
input. -/
theorem pyToNumeric_none_iff (s : String) :
    pyToNumeric s = none ↔ isNumLit s = false := by
  unfold pyToNumeric isNumLit
  by_cases h : numBody (bodyOf (pyStrip s.data)) <;> simp [h]

/-- Claim C10: in the concurrent variant, after all units are gathered the
numeric-column conversion is total and length-preserving (so a malformed
numeric field never aborts the crawl), and on every gathered record each
`id`/`rating`/`price`/`availability` value that is not a numeric literal is
silently replaced by the missing value, while numeric literals convert to
a number. -/
theorem C10_coerce_malformed_numeric (parse : String → List LocalRec)
    (files : List String) (order : List Nat) (i : Nat) (r : LocalRec)
    (h : (scrape_all_pages_async parse files order).get? i = some r) :
    (async_df parse files order).length
      = (scrape_all_pages_async parse files order).length ∧
    (async_df parse files order).get? i = some (coerceRec r) ∧
    (isNumLit r.id = false → (coerceRec r).id = none) ∧
    (isNumLit r.rating = false → (coerceRec r).rating = none) ∧
    (isNumLit r.price = false → (coerceRec r).price = none) ∧
    (isNumLit r.availability = false → (coerceRec r).availability = none) ∧
    (isNumLit r.price = true → ∃ q, (coerceRec r).price = some q) := by
  refine ⟨by simp [async_df], ?_, ?_, ?_, ?_, ?_, ?_⟩
  · show ((scrape_all_pages_async parse files order).map coerceRec).get? i = _
    rw [List.get?_map, h]
    rfl
  · intro hf
    simp [coerceRec, (pyToNumeric_none_iff r.id).mpr hf]
  · intro hf
    simp [coerceRec, (pyToNumeric_none_iff r.rating).mpr hf]
  · intro hf
    simp [coerceRec, (pyToNumeric_none_iff r.price).mpr hf]
  · intro hf
    simp [coerceRec, (pyToNumeric_none_iff r.availability).mpr hf]
  · intro ht
    refine ⟨signOf (pyStrip r.price.data) * numBodyVal (bodyOf (pyStrip r.price.data)), ?_⟩
    unfold isNumLit at ht
    simp [coerceRec, pyToNumeric, ht]

/-- Witness for `C10_coerce_malformed_numeric`: one file whose single record
has the malformed price `"abc"` and numeric id `"7"`; the coerced row has a
missing price and the crawl still produces its full output. -/
theorem C10_coerce_malformed_numeric_witness :
    (coerceRec
      { id := "7", title := "T", category := "C", rating := "3",
        price := "abc", availability := "x5", description := "D" }).price = none ∧
    (async_df
      (fun _ => [{ id := "7", title := "T", category := "C", rating := "3",
                   price := "abc", availability := "x5", description := "D" }])
      ["page_1.html"] [0]).length = 1 := by
  have h := C10_coerce_malformed_numeric
    (fun _ => [{ id := "7", title := "T", category := "C", rating := "3",
                 price := "abc", availability := "x5", description := "D" }])
    ["page_1.html"] [0] 0
    { id := "7", title := "T", category := "C", rating := "3",
      price := "abc", availability := "x5", description := "D" }
    (by decide)
  refine ⟨h.2.2.2.2.1 (by decide), ?_⟩
  rw [h.1]
  decide

/-- `pyDictGet` returns the missing value when no row has the key. -/
theorem pyDictGet_eq_none (rows : List (String × String)) (k : String)
    (h : ∀ kv ∈ rows, kv.1 ≠ k) : pyDictGet rows k = none := by
  unfold pyDictGet
  rw [List.find?_eq_none.mpr ?_]
  · rfl
  · intro kv hkv
    simp [h kv (List.mem_reverse.mp hkv)]

/-- Dropping the rows keyed `k` does not change `find?` for a key other
than `k`. -/
theorem find?_filter_other (l : List (String × String)) (k key : String)
    (hne : key ≠ k) :
    (l.filter (fun kv => kv.1 != k)).find? (fun kv => kv.1 == key)
      = l.find? (fun kv => kv.1 == key) := by
  induction l with
  | nil => rfl
  | cons a t ih =>
    by_cases ha : a.1 = k
    · have hfa : (fun kv : String × String => kv.1 != k) a = false := by simp [ha]
      have hkey : ¬ ((fun kv : String × String => kv.1 == key) a = true) := by
        simp [ha]
        exact fun he => hne he.symm
      rw [List.filter_cons_of_neg (by simp [hfa]), List.find?_cons_of_neg t hkey, ih]
    · rw [List.filter_cons_of_pos (by simp [ha])]
      by_cases hk2 : a.1 = key
      · rw [List.find?_cons_of_pos (List.filter (fun kv => kv.1 != k) t) (by simp [hk2]),
          List.find?_cons_of_pos t (by simp [hk2])]
      · rw [List.find?_cons_of_neg (List.filter (fun kv => kv.1 != k) t) (by simp [hk2]),
          List.find?_cons_of_neg t (by simp [hk2]), ih]

/-- Dropping the rows keyed `k` does not change the dict lookup for a key
other than `k`. -/
theorem pyDictGet_filter_other (rows : List (String × String)) (k key : String)
    (hne : key ≠ k) :
    pyDictGet (rows.filter (fun kv => kv.1 != k)) key = pyDictGet rows key := by
  unfold pyDictGet
  rw [← List.filter_reverse, find?_filter_other _ _ _ hne]

/-- Claim C5: every detail field absent from the document is the explicit
missing value (never zero or the empty string), and the lookups are
independent: removing all table rows of any other key `k`, and hence the
failure to find that field, never changes the extraction of the remaining
fields, nor of the category or the description. -/
theorem C5_detail_fields_missing_and_independent (doc : DetailDoc) (k : String) :
    (¬ hasTableRow doc "UPC" → (parse_product_page doc).upc = none) ∧
    (¬ hasTableRow doc "Product Type" → (parse_product_page doc).product_type = none) ∧
    (¬ hasTableRow doc "Price (excl. tax)" → (parse_product_page doc).price_excl_tax = none) ∧
    (¬ hasTableRow doc "Price (incl. tax)" → (parse_product_page doc).price_incl_tax = none) ∧
    (¬ hasTableRow doc "Tax" → (parse_product_page doc).tax = none) ∧
    (¬ hasTableRow doc "Availability" → (parse_product_page doc).availability_detail = none) ∧
    (¬ hasTableRow doc "Number of reviews" → (parse_product_page doc).num_reviews = none) ∧
    (doc.breadcrumb.length ≤ 2 → (parse_product_page doc).category = none) ∧
    (doc.description = none → (parse_product_page doc).description = none) ∧
    (k ≠ "UPC" →
      (parse_product_page (eraseTableKey doc k)).upc = (parse_product_page doc).upc) ∧
    (k ≠ "Product Type" →
      (parse_product_page (eraseTableKey doc k)).product_type
        = (parse_product_page doc).product_type) ∧
    (k ≠ "Price (excl. tax)" →
      (parse_product_page (eraseTableKey doc k)).price_excl_tax
        = (parse_product_page doc).price_excl_tax) ∧
    (k ≠ "Price (incl. tax)" →
      (parse_product_page (eraseTableKey doc k)).price_incl_tax
        = (parse_product_page doc).price_incl_tax) ∧
    (k ≠ "Tax" →
      (parse_product_page (eraseTableKey doc k)).tax = (parse_product_page doc).tax) ∧
    (k ≠ "Availability" →
      (parse_product_page (eraseTableKey doc k)).availability_detail
        = (parse_product_page doc).availability_detail) ∧
    (k ≠ "Number of reviews" →
      (parse_product_page (eraseTableKey doc k)).num_reviews
        = (parse_product_page doc).num_reviews) ∧
    (parse_product_page (eraseTableKey doc k)).category
      = (parse_product_page doc).category ∧
    (parse_product_page (eraseTableKey doc k)).description
      = (parse_product_page doc).description := by
  have habs : ∀ key, ¬ hasTableRow doc key →
      pyDictGet (doc.table.getD []) key = none := by
    intro key hk
    cases ht : doc.table with
    | none => rfl
    | some rows =>
      apply pyDictGet_eq_none
      intro kv hkv he
      exact hk ⟨rows, ht, kv, hkv, he⟩
  have hind : ∀ key, key ≠ k →
      pyDictGet ((eraseTableKey doc k).table.getD []) key
        = pyDictGet (doc.table.getD []) key := by
    intro key hkey
    cases ht : doc.table with
    | none => simp [eraseTableKey, ht]
    | some rows =>
      simp [eraseTableKey, ht]
      exact pyDictGet_filter_other rows k key hkey
  refine ⟨fun h => habs _ h, fun h => habs _ h, fun h => habs _ h, fun h => habs _ h,
    fun h => habs _ h, fun h => habs _ h, fun h => habs _ h, ?_, fun h => by
      simp [parse_product_page, h], fun h => hind _ h.symm, fun h => hind _ h.symm,
    fun h => hind _ h.symm, fun h => hind _ h.symm, fun h => hind _ h.symm,
    fun h => hind _ h.symm, fun h => hind _ h.symm, ?_, ?_⟩
  · intro h
    simp only [parse_product_page]
    rw [if_neg (by omega)]
  · simp [parse_product_page, eraseTableKey]
  · simp [parse_product_page, eraseTableKey]

/-- Witness for `C5_detail_fields_missing_and_independent` on the concrete
document `docDetailEx` with `k = "Tax"`: erasing the `Tax` row keeps the
`UPC` lookup intact, and absent fields come out as the missing value. -/
theorem C5_detail_fields_missing_and_independent_witness :
    (parse_product_page (eraseTableKey docDetailEx "Tax")).upc = some "u1" ∧
    (parse_product_page docDetailEx).product_type = none ∧
    (parse_product_page docDetailEx).category = none := by
  have h := C5_detail_fields_missing_and_independent docDetailEx "Tax"
  refine ⟨?_, ?_, ?_⟩
  · rw [h.2.2.2.2.2.2.2.2.2.1 (by decide)]
    decide
  · apply h.2.1
    rintro ⟨rows, hrows, kv, hkv, he⟩
    simp only [docDetailEx, Option.some.injEq] at hrows
    subst hrows
    simp only [List.mem_cons, List.not_mem_nil, or_false] at hkv
    rcases hkv with h1 | h1 <;> rw [h1] at he <;> exact absurd he (by decide)
  · exact h.2.2.2.2.2.2.2.1 (by decide)

/-- Fail-fast at the level of one page's item loop: when the `k`-th
container's detail fetch fails and every earlier one succeeds, the loop
stops with the failing locator and exactly the first `k` records. -/
theorem processPods_fail (site : Site) :
    ∀ (pods : List ProductPod) (k : Nat) (p : ProductPod),
      pods.get? k = some p →
      site.detail (parse_pod p).product_url = none →
      (∀ j q, j < k → pods.get? j = some q →
        site.detail (parse_pod q).product_url ≠ none) →
      (processPods site pods).2 = some (parse_pod p).product_url ∧
      (processPods site pods).1.length = k := by
  intro pods
  induction pods with
  | nil =>
    intro k p hk
    simp at hk
  | cons a t ih =>
    intro k p hk hfail hok
    cases k with
    | zero =>
      simp only [List.get?_cons_zero, Option.some.injEq] at hk
      subst hk
      simp [processPods, hfail]
    | succ k2 =>
      have ha := hok 0 a (Nat.succ_pos k2) rfl
      cases hd : site.detail (parse_pod a).product_url with
      | none => exact absurd hd ha
      | some ddoc =>
        have hk2 : t.get? k2 = some p := hk
        have ht := ih k2 p hk2 hfail (fun j q hj hq =>
          hok (j + 1) q (Nat.succ_lt_succ hj) hq)
        refine ⟨?_, ?_⟩
        · simp only [processPods, hd]
          exact ht.1
        · simp only [processPods, hd, List.length_cons]
          rw [ht.2]

/-- Fully traversed pages compose: a crawl that reaches `url` through the
chain produces the chain's records followed by whatever the crawl from
`url` produces, with the same error outcome. -/
theorem scrape_books_chain (site : Site) :
    ∀ (chain : List (String × ListingDoc)) (start url : String) (fuel : Nat),
      reachesPage site start chain url →
      scrape_books site (chain.length + fuel) start
        = ((chain.map (fun cd => (processPods site cd.2.products).1)).flatten
            ++ (scrape_books site fuel url).1,
           (scrape_books site fuel url).2) := by
  intro chain
  induction chain with
  | nil =>
    intro start url fuel h
    rw [show start = url from h]
    simp
  | cons cd rest ih =>
    intro start url fuel h
    obtain ⟨hu, hl, hp, nh, hnh, hrest⟩ := h
    subst hu
    rw [show (cd :: rest).length + fuel = (rest.length + fuel) + 1 from by
      simp [Nat.succ_add]]
    simp only [scrape_books, hl]
    rw [hp, hnh]
    show ((processPods site cd.2.products).1
          ++ (scrape_books site (rest.length + fuel) (nextURL nh)).1,
        (scrape_books site (rest.length + fuel) (nextURL nh)).2) = _
    rw [ih (nextURL nh) url fuel hrest]
    simp [List.append_assoc]

/-- Claim C2: for every crawl in which the detail fetch of the `k`-th item
of some page fails — the page at `url`, reached through any chain of fully
traversed prior pages, with the failing item's earlier siblings succeeding —
the fetcher's failure propagates at once: the crawl's error is exactly that
item's locator, the accumulator retains the prior pages' records followed by
exactly the `k` records before the failing item (none at or after it), and
`main` never invokes the record sink (no output is produced). -/
theorem C2_fail_fast (site : Site) (chain : List (String × ListingDoc))
    (start url : String) (fuel : Nat) (doc : ListingDoc) (k : Nat) (p : ProductPod)
    (hreach : reachesPage site start chain url)
    (hl : site.listing url = some doc)
    (hk : doc.products.get? k = some p)
    (hfail : site.detail (parse_pod p).product_url = none)
    (hok : ∀ j q, j < k → doc.products.get? j = some q →
      site.detail (parse_pod q).product_url ≠ none) :
    (scrape_books site (chain.length + (fuel + 1)) start).2
      = some (parse_pod p).product_url ∧
    (scrape_books site (chain.length + (fuel + 1)) start).1
      = (chain.map (fun cd => (processPods site cd.2.products).1)).flatten
          ++ (processPods site doc.products).1 ∧
    (processPods site doc.products).1.length = k ∧
    (∀ j, ((chain.map (fun cd => (processPods site cd.2.products).1)).flatten).length + k ≤ j →
      (scrape_books site (chain.length + (fuel + 1)) start).1.get? j = none) ∧
    main site (chain.length + (fuel + 1)) start = none := by
  obtain ⟨h2, h1⟩ := processPods_fail site doc.products k p hk hfail hok
  have hpage : scrape_books site (fuel + 1) url
      = ((processPods site doc.products).1, some (parse_pod p).product_url) := by
    simp only [scrape_books, hl]
    rw [h2]
  have hall := scrape_books_chain site chain start url (fuel + 1) hreach
  rw [hpage] at hall
  refine ⟨by rw [hall], by rw [hall], h1, ?_, ?_⟩
  · intro j hj
    rw [hall]
    apply List.get?_eq_none.mpr
    rw [List.length_append, h1]
    exact hj
  · unfold main
    rw [hall]

/-- Witness for `C2_fail_fast`: on the two-page `siteEx2`, `podB`'s detail
fetch fails on the second page, so the crawl from `"START2"` errors with
`podB`'s locator, retains the first page's record plus the one record for
`podA` on the failing page, and writes nothing. -/
theorem C2_fail_fast_witness :
    (scrape_books siteEx2 3 "START2").2 = some (parse_pod podB).product_url ∧
    (scrape_books siteEx2 3 "START2").1.length = 2 ∧
    main siteEx2 3 "START2" = none := by
  have hreach : reachesPage siteEx2 "START2" [("START2", docPage1)]
      (BASE_URL ++ "catalogue/" ++ "page-2.html") :=
    ⟨rfl, by decide, by decide, "page-2.html", rfl,
      (by decide : nextURL "page-2.html" = BASE_URL ++ "catalogue/" ++ "page-2.html")⟩
  have h := C2_fail_fast siteEx2 [("START2", docPage1)] "START2"
    (BASE_URL ++ "catalogue/" ++ "page-2.html") 1 docListEx 1 podB
    hreach (by decide) (by decide) (by decide)
    (fun j q hj hq => by
      match j, hj with
      | 0, _ =>
        simp only [docListEx, List.get?_cons_zero, Option.some.injEq] at hq
        subst hq
        decide)
  refine ⟨h.1, ?_, h.2.2.2.2⟩
  have hrec : (scrape_books siteEx2 3 "START2").1
      = (List.map (fun cd => (processPods siteEx2 cd.2.products).1)
          [("START2", docPage1)]).flatten
        ++ (processPods siteEx2 docListEx.products).1 := h.2.1
  rw [hrec]
  decide

/-! Machinery about `leadsWith`, `hasOcc` and `stripOcc` for the locator
resolution claims. -/

theorem leadsWith_append_self (a t : List Char) : leadsWith a (a ++ t) = true := by
  induction a with
  | nil => rfl
  | cons c as ih => simp [leadsWith, ih]

theorem leadsWith_append_split (a b t : List Char) :
    leadsWith (a ++ b) (a ++ t) = leadsWith b t := by
  induction a with
  | nil => rfl
  | cons c as ih => simp [leadsWith, ih]

theorem leadsWith_of_append (a b t : List Char)
    (h : leadsWith (a ++ b) t = true) : leadsWith a t = true := by
  induction a generalizing t with
  | nil => rfl
  | cons c as ih =>
    cases t with
    | nil => simp [leadsWith] at h
    | cons d ds =>
      simp only [List.cons_append, leadsWith, Bool.and_eq_true] at h ⊢
      exact ⟨h.1, ih ds h.2⟩

theorem hasOcc_of_leadsWith (pat t : List Char) (hp : pat ≠ [])
    (h : leadsWith pat t = true) : hasOcc pat t = true := by
  cases t with
  | nil =>
    cases pat with
    | nil => exact absurd rfl hp
    | cons c cs => simp [leadsWith] at h
  | cons c cs => simp [hasOcc, h]

theorem hasOcc_mono_append (a b s : List Char) (h : hasOcc a s = false) :
    hasOcc (a ++ b) s = false := by
  induction s with
  | nil => rfl
  | cons c cs ih =>
    simp only [hasOcc, Bool.or_eq_false_iff] at h ⊢
    refine ⟨?_, ih h.2⟩
    cases hlw : leadsWith (a ++ b) (c :: cs) with
    | false => rfl
    | true => exact absurd (leadsWith_of_append a b _ hlw) (by simp [h.1])

theorem stripOccAux_id (pat s : List Char) (h : hasOcc pat s = false) :
    stripOccAux pat 0 s = s := by
  induction s with
  | nil => rfl
  | cons c cs ih =>
    simp only [hasOcc, Bool.or_eq_false_iff] at h
    simp only [stripOccAux]
    rw [if_neg (by simp [h.1]), ih h.2]

theorem stripOccAux_skip (pat : List Char) :
    ∀ (l s : List Char), stripOccAux pat l.length (l ++ s) = stripOccAux pat 0 s := by
  intro l
  induction l with
  | nil => intro s; rfl
  | cons c cs ih =>
    intro s
    simp only [List.length_cons, List.cons_append, stripOccAux]
    exact ih s

theorem stripOccAux_consume (pat s : List Char) (hp : pat ≠ []) :
    stripOccAux pat 0 (pat ++ s) = stripOccAux pat 0 s := by
  cases pat with
  | nil => exact absurd rfl hp
  | cons c pt =>
    show stripOccAux (c :: pt) 0 (c :: (pt ++ s)) = _
    simp only [stripOccAux]
    rw [if_pos ?_]
    · show stripOccAux (c :: pt) ((c :: pt).length - 1) (pt ++ s) = _
      rw [show (c :: pt).length - 1 = pt.length from by simp, stripOccAux_skip]
    · have h1 := leadsWith_append_self (c :: pt) s
      simp only [List.cons_append] at h1
      simp [h1, List.isEmpty]

theorem hasOcc_dots3_of_dots (s : List Char) (hs : hasOcc dots s = false) :
    hasOcc dots3 s = false := by
  rw [show dots3 = dots ++ (dots ++ dots) from by decide]
  exact hasOcc_mono_append _ _ _ hs

theorem leadsWith_dots3_one (s : List Char) (hs : hasOcc dots s = false) :
    leadsWith dots3 (dots ++ s) = false := by
  cases hlw : leadsWith dots3 (dots ++ s) with
  | false => rfl
  | true =>
    exfalso
    rw [show dots3 = dots ++ (dots ++ dots) from by decide,
      leadsWith_append_split dots (dots ++ dots) s] at hlw
    have h2 := leadsWith_of_append dots dots s hlw
    have h3 := hasOcc_of_leadsWith dots s (by decide) h2
    simp [hs] at h3

theorem leadsWith_dots3_two (s : List Char) (hs : hasOcc dots s = false) :
    leadsWith dots3 (dots ++ (dots ++ s)) = false := by
  cases hlw : leadsWith dots3 (dots ++ (dots ++ s)) with
  | false => rfl
  | true =>
    exfalso
    rw [show dots3 = dots ++ (dots ++ dots) from by decide,
      leadsWith_append_split dots (dots ++ dots) (dots ++ s),
      leadsWith_append_split dots dots s] at hlw
    have h3 := hasOcc_of_leadsWith dots s (by decide) hlw
    simp [hs] at h3

theorem hasOcc_dots3_one (s : List Char) (hs : hasOcc dots s = false) :
    hasOcc dots3 (dots ++ s) = false := by
  have e : hasOcc dots3 (dots ++ s)
      = (leadsWith dots3 (dots ++ s) ||
          (leadsWith dots3 ('.' :: '/' :: s) ||
            (leadsWith dots3 ('/' :: s) || hasOcc dots3 s))) := rfl
  rw [e, leadsWith_dots3_one s hs, hasOcc_dots3_of_dots s hs,
    show leadsWith dots3 ('.' :: '/' :: s) = false from rfl,
    show leadsWith dots3 ('/' :: s) = false from rfl]
  rfl

theorem hasOcc_dots3_two (s : List Char) (hs : hasOcc dots s = false) :
    hasOcc dots3 (dots ++ (dots ++ s)) = false := by
  have e : hasOcc dots3 (dots ++ (dots ++ s))
      = (leadsWith dots3 (dots ++ (dots ++ s)) ||
          (leadsWith dots3 ('.' :: '/' :: (dots ++ s)) ||
            (leadsWith dots3 ('/' :: (dots ++ s)) || hasOcc dots3 (dots ++ s)))) := rfl
  rw [e, leadsWith_dots3_two s hs, hasOcc_dots3_one s hs,
    show leadsWith dots3 ('.' :: '/' :: (dots ++ s)) = false from rfl,
    show leadsWith dots3 ('/' :: (dots ++ s)) = false from rfl]
  rfl

theorem repParent_data_succ (k : Nat) :
    (repParent (k + 1)).data = dots ++ (repParent k).data := by
  show ("../" ++ repParent k).data = _
  rw [String.data_append]
  rfl

/-- Scanning the first `replace` of the resolution: deleting the
`"../../../"` occurrences of `k` parent segments followed by a `"../"`-free
suffix leaves `k mod 3` parent segments. -/
theorem strip3_rep (s : List Char) (hs : hasOcc dots s = false) :
    ∀ k, stripOccAux dots3 0 ((repParent k).data ++ s)
      = (repParent (k % 3)).data ++ s := by
  intro k
  induction k using Nat.strong_induction_on with
  | _ k ih =>
    match k, ih with
    | 0, _ =>
      rw [show (repParent 0).data = ([] : List Char) from rfl]
      exact stripOccAux_id _ _ (hasOcc_dots3_of_dots s hs)
    | 1, _ =>
      rw [show (repParent 1).data = dots from by decide]
      exact stripOccAux_id _ _ (hasOcc_dots3_one s hs)
    | 2, _ =>
      rw [show (repParent 2).data = dots ++ dots from by decide, List.append_assoc]
      exact stripOccAux_id _ _ (hasOcc_dots3_two s hs)
    | (m + 3), ih =>
      have hd : (repParent (m + 3)).data = dots3 ++ (repParent m).data := by
        rw [repParent_data_succ, repParent_data_succ, repParent_data_succ,
          show dots3 = dots ++ (dots ++ dots) from by decide]
        simp [List.append_assoc]
      rw [hd, List.append_assoc, stripOccAux_consume _ _ (by decide),
        ih m (by omega), Nat.add_mod_right]

/-- The second `replace` of the resolution absorbs any number of leading
parent segments. -/
theorem strip_dots_rep : ∀ (m : Nat) (s : List Char),
    stripOccAux dots 0 ((repParent m).data ++ s) = stripOccAux dots 0 s := by
  intro m
  induction m with
  | zero => intro s; rfl
  | succ m ih =>
    intro s
    rw [repParent_data_succ, List.append_assoc, stripOccAux_consume _ _ (by decide)]
    exact ih s

/-- Claim C7, counterexample: for `k = 0` and the suffix `"a../b"` (whose
non-prefix portion contains `"../"`) the resolution does not produce the
catalogue root followed by the suffix — the interior `"../"` is deleted as
well. -/
theorem C7_counterexample :
    resolveLink (repParent 0 ++ "a../b") ≠ BASE_URL ++ "catalogue/" ++ "a../b" := by
  decide

/-- Claim C7 (amended): for every count `k ≥ 0` and every suffix containing
no occurrence of `"../"`, resolving `"../" × k ++ suffix` produces the same
absolute locator regardless of `k`, namely the fixed catalogue root prefixed
to the suffix. -/
theorem C7_amended_resolution_k_invariant (k : Nat) (suffix : String)
    (hs : hasOcc dots suffix.data = false) :
    resolveLink (repParent k ++ suffix) = BASE_URL ++ "catalogue/" ++ suffix := by
  unfold resolveLink pyReplaceDel
  show BASE_URL ++ "catalogue/" ++
      String.mk (stripOcc dots (String.mk (stripOcc dots3 ((repParent k ++ suffix)).data)).data)
    = _
  rw [show ((repParent k ++ suffix)).data = (repParent k).data ++ suffix.data from
    String.data_append _ _]
  rw [show stripOcc dots3 ((repParent k).data ++ suffix.data)
      = (repParent (k % 3)).data ++ suffix.data from strip3_rep suffix.data hs k]
  show BASE_URL ++ "catalogue/" ++
      String.mk (stripOccAux dots 0 ((repParent (k % 3)).data ++ suffix.data)) = _
  rw [strip_dots_rep, stripOccAux_id dots suffix.data hs]

/-- Witness for `C7_amended_resolution_k_invariant` at `k = 5`,
`suffix = "alpha.html"`. -/
theorem C7_amended_resolution_k_invariant_witness :
    resolveLink (repParent 5 ++ "alpha.html")
      = "https://books.toscrape.com/catalogue/alpha.html" := by
  rw [C7_amended_resolution_k_invariant 5 "alpha.html" (by decide)]
  rfl

/-- Claim C9, counterexample: on the href `"a.../../.././x"` the resolution
does not equal the claim's described function (delete every `"../"`
occurrence in one pass, then prepend the prefix): the code first deletes
`"../../../"` occurrences, which here exposes and then deletes a further
`"../"` that the single-pass deletion leaves intact. -/
theorem C9_counterexample :
    resolveLink "a.../../.././x" ≠ resolveLinkClaimC9 "a.../../.././x" := by
  decide

/-- Claim C9 (amended): locator resolution deletes the occurrences of
`"../../../"` and then those of `"../"`, and unconditionally prepends the
catalogue prefix; on every href with no `"../../../"` occurrence this equals
the claimed single-pass deletion of every `"../"` occurrence, and an
already-absolute href (no `"../"` at all) still receives the catalogue
prefix unchanged. -/
theorem C9_amended_resolution_deletion (href : String) :
    (hasOcc dots3 href.data = false → resolveLink href = resolveLinkClaimC9 href) ∧
    (hasOcc dots href.data = false →
      resolveLink href = BASE_URL ++ "catalogue/" ++ href) := by
  constructor
  · intro h3
    unfold resolveLink resolveLinkClaimC9 pyReplaceDel stripOcc
    rw [show ("../../../".data) = dots3 from rfl]
    rw [stripOccAux_id dots3 href.data h3]
    rfl
  · intro h
    unfold resolveLink pyReplaceDel stripOcc
    rw [show ("../../../".data) = dots3 from rfl]
    rw [stripOccAux_id dots3 href.data (hasOcc_dots3_of_dots _ h)]
    show BASE_URL ++ "catalogue/" ++ String.mk (stripOccAux dots 0 href.data) = _
    rw [stripOccAux_id dots href.data h]

/-- Witness for `C9_amended_resolution_deletion` at the absolute href
`"https://x/y.html"`. -/
theorem C9_amended_resolution_deletion_witness :
    resolveLink "https://x/y.html" = resolveLinkClaimC9 "https://x/y.html" ∧
    resolveLink "https://x/y.html"
      = "https://books.toscrape.com/catalogue/" ++ "https://x/y.html" := by
  constructor
  · exact (C9_amended_resolution_deletion "https://x/y.html").1 (by decide)
  · rw [(C9_amended_resolution_deletion "https://x/y.html").2 (by decide)]
    rfl

/-! Machinery for the concurrent-dispatch claim. -/

/-- The final slot table after all units complete: every slot named in the
completion order holds its own unit's result, independent of that order. -/
theorem runUnits_apply (parse : String → List LocalRec) (files : List String) :
    ∀ (order : List Nat) (g : Nat → Option (List LocalRec)) (j : Nat),
      (order.foldl (fun slots i => putSlot slots i (((files.get? i).map parse).getD [])) g) j
        = if j ∈ order then some (((files.get? j).map parse).getD []) else g j := by
  intro order
  induction order with
  | nil => intro g j; simp
  | cons i t ih =>
    intro g j
    show (t.foldl _ (putSlot g i _)) j = _
    rw [ih]
    by_cases hjt : j ∈ t
    · simp [hjt]
    · by_cases hji : j = i
      · subst hji
        simp [hjt, putSlot]
      · simp [hjt, hji, putSlot]

/-- Draining fully-populated slots in index order recovers the per-file
parses in listing order. -/
theorem gather_eq (parse : String → List LocalRec) (files : List String)
    (slots : Nat → Option (List LocalRec))
    (h : ∀ i, i < files.length →
      slots i = some (((files.get? i).map parse).getD [])) :
    (List.range files.length).map (fun i => (slots i).getD []) = files.map parse := by
  apply List.ext_get?
  intro i
  by_cases hi : i < files.length
  · rw [List.get?_map, List.get?_map,
      show (List.range files.length).get? i = some i from by
        rw [List.get?_eq_getElem?]; exact List.getElem?_range hi]
    have hf : files.get? i = some (files.get ⟨i, hi⟩) := List.get?_eq_get hi
    show some ((slots i).getD []) = (files.get? i).map parse
    rw [h i hi, hf]
    rfl
  · rw [List.get?_eq_none.mpr (by simp; omega), List.get?_eq_none.mpr (by simp; omega)]

/-- Claim C1: for the same input documents the concurrent dispatch variant
produces a record sequence identical, element for element and in order, to
the sequential controller's output, for every completion order of the
units; the identity survives the numeric-conversion step. -/
theorem C1_concurrent_equals_sequential (parse : String → List LocalRec)
    (files : List String) (order : List Nat)
    (hperm : order.Perm (List.range files.length)) :
    scrape_all_pages_async parse files order = seqScrape parse files ∧
    async_df parse files order = (seqScrape parse files).map coerceRec := by
  have hmem : ∀ i, i < files.length → i ∈ order := fun i hi =>
    hperm.mem_iff.mpr (List.mem_range.mpr hi)
  have hslots : ∀ i, i < files.length →
      runUnits parse files order i = some (((files.get? i).map parse).getD []) := by
    intro i hi
    unfold runUnits
    rw [runUnits_apply]
    simp [hmem i hi]
  have hg : scrape_all_pages_async parse files order = seqScrape parse files := by
    show ((List.range files.length).map
        (fun i => (runUnits parse files order i).getD [])).flatten
      = (files.map parse).flatten
    rw [gather_eq parse files _ hslots]
  exact ⟨hg, by unfold async_df; rw [hg]⟩

/-- Witness for `C1_concurrent_equals_sequential`: two files completing in
reversed order still yield the sequential output. -/
theorem C1_concurrent_equals_sequential_witness :
    scrape_all_pages_async parseEx ["pa", "pb"] [1, 0]
      = seqScrape parseEx ["pa", "pb"] :=
  (C1_concurrent_equals_sequential parseEx ["pa", "pb"] [1, 0] (by decide)).1

/-! Machinery for the record-sink round-trip claim. -/

/-- Reading an unquoted special-character-free run accumulates it into the
current field. -/
theorem parseGo_unquoted (t : List Char)
    (h : ∀ c ∈ t, c ≠ '"' ∧ c ≠ ',' ∧ c ≠ '\n') :
    ∀ (rest cur : List Char) (row : List CVal) (rows : List (List CVal)),
      parseGo (t ++ rest) .normal cur row rows
        = parseGo rest .normal (t.reverse ++ cur) row rows := by
  induction t with
  | nil => intro rest cur row rows; simp
  | cons c t2 ih =>
    intro rest cur row rows
    have hc := h c (by simp)
    show parseGo (c :: (t2 ++ rest)) .normal cur row rows = _
    simp only [parseGo]
    rw [if_neg (by simp [hc.1]), if_neg (by simp [hc.2.1]), if_neg (by simp [hc.2.2])]
    rw [ih (fun x hx => h x (by simp [hx]))]
    simp

/-- Reading an escaped text body inside quotes accumulates the unescaped
text into the current field. -/
theorem parseGo_quoted (t : List Char) :
    ∀ (rest cur : List Char) (row : List CVal) (rows : List (List CVal)),
      parseGo (escQ t ++ rest) .inQ cur row rows
        = parseGo rest .inQ (t.reverse ++ cur) row rows := by
  induction t with
  | nil => intro rest cur row rows; simp [escQ]
  | cons c t2 ih =>
    intro rest cur row rows
    by_cases hc : c = '"'
    · subst hc
      rw [show escQ ('"' :: t2) ++ rest = '"' :: '"' :: (escQ t2 ++ rest) from rfl]
      rw [show parseGo ('"' :: '"' :: (escQ t2 ++ rest)) .inQ cur row rows
          = parseGo (escQ t2 ++ rest) .inQ ('"' :: cur) row rows from by
        simp [parseGo]]
      rw [ih]
      simp
    · rw [show escQ (c :: t2) = c :: escQ t2 from by simp [escQ, hc], List.cons_append]
      simp only [parseGo]
      rw [if_neg hc, ih]
      simp

/-- Reading one serialized cell up to a terminating comma closes exactly
that cell. -/
theorem parseGo_field_comma (v : CVal) (hv : wfVal v) :
    ∀ (rest : List Char) (row : List CVal) (rows : List (List CVal)),
      parseGo (writeField v ++ ',' :: rest) .normal [] row rows
        = parseGo rest .normal [] (v :: row) rows := by
  intro rest row rows
  cases v with
  | null =>
    show parseGo (',' :: rest) .normal [] row rows = _
    simp [parseGo, closeField]
  | num s =>
    obtain ⟨hne, hch⟩ := hv
    have hdata : s.data ≠ [] := fun he => hne (by
      rw [show s = String.mk s.data from rfl, he])
    show parseGo (s.data ++ ',' :: rest) .normal [] row rows = _
    rw [parseGo_unquoted s.data hch]
    simp [parseGo, closeField, List.isEmpty_iff, hdata]
  | str s =>
    simp only [writeField]
    rw [show ('"' :: (escQ s.data ++ ['"'])) ++ ',' :: rest
        = '"' :: (escQ s.data ++ ('"' :: ',' :: rest)) from by simp]
    rw [show parseGo ('"' :: (escQ s.data ++ ('"' :: ',' :: rest))) .normal [] row rows
        = parseGo (escQ s.data ++ ('"' :: ',' :: rest)) .inQ [] row rows from by
      simp [parseGo]]
    rw [parseGo_quoted s.data]
    simp [parseGo, closeField]

/-- Reading one serialized cell up to a terminating newline closes that
cell and the current row. -/
theorem parseGo_field_newline (v : CVal) (hv : wfVal v) :
    ∀ (rest : List Char) (row : List CVal) (rows : List (List CVal)),
      parseGo (writeField v ++ '\n' :: rest) .normal [] row rows
        = parseGo rest .normal [] [] (((v :: row).reverse) :: rows) := by
  intro rest row rows
  cases v with
  | null =>
    show parseGo ('\n' :: rest) .normal [] row rows = _
    simp [parseGo, closeField]
  | num s =>
    obtain ⟨hne, hch⟩ := hv
    have hdata : s.data ≠ [] := fun he => hne (by
      rw [show s = String.mk s.data from rfl, he])
    show parseGo (s.data ++ '\n' :: rest) .normal [] row rows = _
    rw [parseGo_unquoted s.data hch]
    simp [parseGo, closeField, List.isEmpty_iff, hdata]
  | str s =>
    simp only [writeField]
    rw [show ('"' :: (escQ s.data ++ ['"'])) ++ '\n' :: rest
        = '"' :: (escQ s.data ++ ('"' :: '\n' :: rest)) from by simp]
    rw [show parseGo ('"' :: (escQ s.data ++ ('"' :: '\n' :: rest))) .normal [] row rows
        = parseGo (escQ s.data ++ ('"' :: '\n' :: rest)) .inQ [] row rows from by
      simp [parseGo]]
    rw [parseGo_quoted s.data]
    simp [parseGo, closeField]

/-- Reading one serialized row closes exactly that row. -/
theorem parseGo_row : ∀ (fields : List CVal), fields ≠ [] →
    (∀ v ∈ fields, wfVal v) →
    ∀ (rest : List Char) (row : List CVal) (rows : List (List CVal)),
      parseGo (writeRow fields ++ rest) .normal [] row rows
        = parseGo rest .normal [] [] ((row.reverse ++ fields) :: rows) := by
  intro fields
  induction fields with
  | nil => intro h; exact absurd rfl h
  | cons v vs ih =>
    intro _ hwf rest row rows
    cases vs with
    | nil =>
      show parseGo ((writeField v ++ ['\n']) ++ rest) .normal [] row rows = _
      rw [List.append_assoc, List.singleton_append,
        parseGo_field_newline v (hwf v (by simp))]
      simp
    | cons v2 vs2 =>
      show parseGo ((writeField v ++ ',' :: writeRow (v2 :: vs2)) ++ rest)
          .normal [] row rows = _
      rw [List.append_assoc, List.cons_append,
        parseGo_field_comma v (hwf v (by simp)),
        ih (by simp) (fun x hx => hwf x (by simp [hx]))]
      simp

/-- Reading a serialized file appends all its rows to the accumulator. -/
theorem parseGo_file : ∀ (rows : List (List CVal)),
    (∀ r ∈ rows, r ≠ [] ∧ ∀ v ∈ r, wfVal v) →
    ∀ (acc : List (List CVal)),
      parseGo (writeCSV rows) .normal [] [] acc = acc.reverse ++ rows := by
  intro rows
  induction rows with
  | nil =>
    intro _ acc
    show parseGo [] .normal [] [] acc = _
    simp [parseGo]
  | cons r rs ih =>
    intro h acc
    show parseGo (writeRow r ++ writeCSV rs) .normal [] [] acc = _
    rw [parseGo_row r (h r (by simp)).1 (h r (by simp)).2,
      ih (fun x hx => h x (by simp [hx]))]
    simp

/-- Round-trip through the sink discipline for well-formed rows. -/
theorem parseCSV_writeCSV (rows : List (List CVal))
    (h : ∀ r ∈ rows, r ≠ [] ∧ ∀ v ∈ r, wfVal v) :
    parseCSV (writeCSV rows) = rows := by
  have := parseGo_file rows h []
  simpa [parseCSV] using this

/-- Claim C6: writing an `EnrichedRecord` sequence through the tabular sink
and re-reading the file recovers every row exactly — present fields with
their values, absent optional fields as the explicit missing cell — and the
discipline writes every text field quoted (hence in particular those
containing the delimiter, quote character or newline), numeric fields
unquoted when present, and missing fields as the empty token.  The
hypotheses record the invariants of the pipeline's numeric tokens: a
nonempty digits-and-dot price and a rating at most five. -/
theorem C6_sink_roundtrip (records : List EnrichedRecord)
    (h : ∀ r ∈ records,
      (r.price ≠ "" ∧ ∀ c ∈ r.price.data, c.isDigit = true ∨ c = '.') ∧
      r.rating ≤ 5) :
    parseCSV (writeCSV (records.map toRow)) = records.map toRow ∧
    (∀ s : String, writeField (CVal.str s) = '"' :: (escQ s.data ++ ['"'])) ∧
    (∀ s : String, writeField (CVal.num s) = s.data) ∧
    writeField CVal.null = [] := by
  refine ⟨?_, fun s => rfl, fun s => rfl, rfl⟩
  apply parseCSV_writeCSV
  intro row hrow
  obtain ⟨r, hr, hreq⟩ := List.mem_map.mp hrow
  obtain ⟨⟨hp1, hp2⟩, hrat⟩ := h r hr
  subst hreq
  refine ⟨by simp [toRow], ?_⟩
  intro v hv
  simp only [toRow, List.mem_cons, List.not_mem_nil, or_false] at hv
  have hopt : ∀ o : Option String, wfVal (optStr o) := by
    intro o
    cases o <;> simp [optStr, wfVal]
  rcases hv with h1|h1|h1|h1|h1|h1|h1|h1|h1|h1|h1|h1|h1 <;> subst h1
  · simp [wfVal]
  · refine ⟨hp1, ?_⟩
    intro c hc
    rcases hp2 c hc with hd | hd
    · refine ⟨?_, ?_, ?_⟩ <;> intro he <;> rw [he] at hd <;> exact absurd hd (by decide)
    · subst hd
      exact ⟨by decide, by decide, by decide⟩
  · simp [wfVal]
  · have h6 : r.rating = 0 ∨ r.rating = 1 ∨ r.rating = 2 ∨ r.rating = 3 ∨
        r.rating = 4 ∨ r.rating = 5 := by omega
    rcases h6 with h2|h2|h2|h2|h2|h2 <;> rw [h2] <;> exact ⟨by decide, by decide⟩
  · exact hopt r.upc
  · exact hopt r.product_type
  · exact hopt r.price_excl_tax
  · exact hopt r.price_incl_tax
  · exact hopt r.tax
  · exact hopt r.availability_detail
  · exact hopt r.num_reviews
  · exact hopt r.category
  · exact hopt r.description

/-- Witness for `C6_sink_roundtrip` on the concrete record `recSinkEx`. -/
theorem C6_sink_roundtrip_witness :
    parseCSV (writeCSV ([recSinkEx].map toRow)) = [recSinkEx].map toRow :=
  (C6_sink_roundtrip [recSinkEx] (by decide)).1

end BookScrape
